import Mathlib

/-!
Verification development for the go-iotop repository (two variants:
`src/main.go`, a termui dashboard, and `src/unnamed/part_000`, a bubbletea
dashboard).  The Go code is shallowly embedded: `float64` values are
modelled as `ℚ` (every float operation the claims exercise — division by
1024, subtraction and comparison of small integers — is exact in binary
floating point, so the rational model is faithful); fallible collaborator
calls are modelled as `Except`; Go's `sort.Slice` is embedded by the
pdqsort implementation of Go's standard `sort` package (Go 1.19+), the
algorithm the compiled program actually runs.
-/

/-- Sort keys of the termui variant (Go `type SortBy int` with constants
`SortByCPU`, `SortByRead`, `SortByWrite` in src/main.go). -/
inductive SortBy where
  | SortByCPU
  | SortByRead
  | SortByWrite
  deriving DecidableEq, Inhabited

/-- Fixed-point decimal formatting of a rational, the model of Go's
`fmt.Sprintf` verb `%.<prec>f` applied to a float64: round the value to
`prec` decimal places with ties going to the even last digit (the rounding
Go's strconv performs on the exact binary value), then print the integer
part, a dot and exactly `prec` fraction digits. -/
def roundHalfEven (q : ℚ) : ℤ :=
  let f : ℤ := ⌊q⌋
  let r : ℚ := q - (f : ℚ)
  if r < 1/2 then f
  else if 1/2 < r then f + 1
  else if f % 2 = 0 then f else f + 1

/-- Digits of the fraction part, padded on the left with zeros to `prec`
characters. -/
def padZeros (prec : Nat) (s : String) : String :=
  String.mk (List.replicate (prec - s.length) '0') ++ s

/-- Model of `fmt.Sprintf("%.<prec>f", v)` for a non-negative rational. -/
def formatFixedNN (prec : Nat) (q : ℚ) : String :=
  let n : ℤ := roundHalfEven (q * (10 : ℚ) ^ prec)
  let m : Nat := n.toNat
  let base : Nat := 10 ^ prec
  toString (m / base) ++ "." ++ padZeros prec (toString (m % base))

/-- Model of `fmt.Sprintf("%.<prec>f", v)` for any rational. -/
def formatFixed (prec : Nat) (q : ℚ) : String :=
  if q < 0 then "-" ++ formatFixedNN prec (-q) else formatFixedNN prec q

/-- The unit ladder of `humanizeBytes` (Go `units := []string{"B", "KB",
"MB", "GB", "TB"}`, identical in both variants). -/
def humanizeUnits : List String := ["B", "KB", "MB", "GB", "TB"]

/-- The scaling loop of `humanizeBytes`: `for value > 1024 && unitIndex <
len(units)-1 { value /= 1024; unitIndex++ }`.  The loop runs at most
`len(units)-1 = 4` times, which is the structural fuel. -/
def humanizeLoop : Nat → ℚ → Nat → ℚ × Nat
  | 0, value, unitIndex => (value, unitIndex)
  | fuel + 1, value, unitIndex =>
    if 1024 < value ∧ unitIndex < humanizeUnits.length - 1 then
      humanizeLoop fuel (value / 1024) (unitIndex + 1)
    else
      (value, unitIndex)

/-- Go `humanizeBytes` (src/main.go lines 49-60 and src/unnamed/part_000
lines 32-43, identical): scale through B→KB→MB→GB→TB dividing by 1024
while the value strictly exceeds 1024 and a larger unit remains, then
format with two decimals and append the unit. -/
def humanizeBytes (bytes : ℚ) : String :=
  let p := humanizeLoop (humanizeUnits.length - 1) bytes 0
  formatFixed 2 p.1 ++ " " ++ humanizeUnits.getD p.2 ""

/-- The IO counter pair a process reports (gopsutil `process.IOCountersStat`,
fields `ReadBytes`, `WriteBytes`, both `uint64`). -/
structure IOCountersStat where
  readBytes : Nat
  writeBytes : Nat
  deriving DecidableEq, Inhabited

/-- One open-file record (gopsutil `process.OpenFilesStat`, field `Path`). -/
structure OpenFilesStat where
  path : String
  deriving DecidableEq, Inhabited

deriving instance DecidableEq for Except

/-- One enumerated process as the metrics collaborator reports it: the pid
plus the per-field results of the calls the Go code makes on a
`process.Process` (`Name()`, `IOCounters()`, `CPUPercent()`,
`MemoryPercent()`, `OpenFiles()`).  An `Except` error models the per-field
Go error; gopsutil returns the zero value alongside an error, which is how
the code uses the `cpuPercent, _ :=` and `memPercent, _ :=` calls. -/
structure EnumProc where
  pid : Int
  name : Except Unit String
  ioCounters : Except Unit IOCountersStat
  cpuPercent : Except Unit ℚ
  memPercent : Except Unit ℚ
  openFiles : Except Unit (List OpenFilesStat)
  deriving DecidableEq, Inhabited

namespace Tui

/-- Go `type ProcessIO struct` of the termui variant (src/main.go lines
28-40), field for field; `float64`/`float32` fields are modelled as `ℚ`. -/
structure ProcessIOStat where
  PID : Int
  Name : String
  ReadBytes : ℚ
  WriteBytes : ℚ
  LastRead : ℚ
  LastWrite : ℚ
  ReadRate : ℚ
  WriteRate : ℚ
  OpenFiles : List String
  CPUPercent : ℚ
  MemPercent : ℚ
  deriving DecidableEq, Inhabited

/-- The field the comparison closure of `sort.Slice` reads under a given
sort key (src/main.go lines 137-146): `ReadRate` for `SortByRead`,
`WriteRate` for `SortByWrite`, `CPUPercent` in the default case. -/
def keyOf (k : SortBy) (p : ProcessIOStat) : ℚ :=
  match k with
  | .SortByRead => p.ReadRate
  | .SortByWrite => p.WriteRate
  | .SortByCPU => p.CPUPercent

/-- The `less` closure handed to `sort.Slice` in src/main.go lines 137-146:
strictly greater on the selected key (a descending order). -/
def lessFor (k : SortBy) (x y : ProcessIOStat) : Bool :=
  decide (keyOf k y < keyOf k x)

end Tui

/-!
Embedding of Go's `sort.Slice` (package `sort`, Go 1.19+): the `lessSwap`
pdqsort of `zsortfunc.go`, transcribed function for function.  The slice
is a `List α`, Go's `data.Swap(i, j)` is `swapL`, `data.Less(i, j)` is
`less (getE l i) (getE l j)`.  Loops are written as recursions; where a Go
loop has no structural measure the recursion carries a fuel argument, and
every call site passes fuel that exceeds the loop's iteration count, so
the embedding computes exactly what the Go code computes.  Indices are
`Nat`; every index the Go code touches is in bounds, and `swapL`/`getE`
are total via a bounds guard/default.
-/

/-- Read the element at index `i` (Go `data[i]`). -/
def getE {α : Type} [Inhabited α] (l : List α) (i : Nat) : α :=
  l.getD i default

/-- Go `data.Swap(i, j)`. -/
def swapL {α : Type} [Inhabited α] (l : List α) (i j : Nat) : List α :=
  if i < l.length ∧ j < l.length then
    (l.set i (getE l j)).set j (getE l i)
  else l

/-- Inner loop of `insertionSort_func`: `for j := i; j > a && data.Less(j,
j-1); j-- { data.Swap(j, j-1) }`. -/
def insertInner {α : Type} [Inhabited α] (less : α → α → Bool) (a : Nat) :
    Nat → List α → List α
  | 0, l => l
  | j + 1, l =>
    if a < j + 1 ∧ less (getE l (j + 1)) (getE l j) then
      insertInner less a j (swapL l (j + 1) j)
    else l

/-- Outer loop of `insertionSort_func`: `for i := a + 1; i < b; i++`. -/
def insertOuter {α : Type} [Inhabited α] (less : α → α → Bool) (a b : Nat) :
    Nat → Nat → List α → List α
  | 0, _, l => l
  | fuel + 1, i, l =>
    if i < b then insertOuter less a b fuel (i + 1) (insertInner less a i l)
    else l

/-- Go `insertionSort_func(data, a, b)`. -/
def insertionSortGo {α : Type} [Inhabited α] (less : α → α → Bool)
    (l : List α) (a b : Nat) : List α :=
  insertOuter less a b (b - a) (a + 1) l

/-- Loop of `siftDown_func(data, lo, hi, first)`, driven by `root`. -/
def siftDownLoop {α : Type} [Inhabited α] (less : α → α → Bool)
    (hi first : Nat) : Nat → Nat → List α → List α
  | 0, _, l => l
  | fuel + 1, root, l =>
    let child := 2 * root + 1
    if child ≥ hi then l
    else
      let child :=
        if child + 1 < hi ∧ less (getE l (first + child)) (getE l (first + child + 1))
        then child + 1 else child
      if ¬ less (getE l (first + root)) (getE l (first + child)) then l
      else siftDownLoop less hi first fuel child (swapL l (first + root) (first + child))

/-- Go `siftDown_func(data, lo, hi, first)`. -/
def siftDownGo {α : Type} [Inhabited α] (less : α → α → Bool)
    (l : List α) (lo hi first : Nat) : List α :=
  siftDownLoop less hi first (hi + 1) lo l

/-- Heap-building loop of `heapSort_func`: `for i := (hi - 1) / 2; i >= 0;
i--`, counting `i` down structurally. -/
def heapBuild {α : Type} [Inhabited α] (less : α → α → Bool)
    (hi first : Nat) : Nat → List α → List α
  | 0, l => siftDownGo less l 0 hi first
  | i + 1, l => heapBuild less hi first i (siftDownGo less l (i + 1) hi first)

/-- Pop loop of `heapSort_func`: `for i := hi - 1; i >= 0; i-- {
data.Swap(first, first+i); siftDown(data, lo, i, first) }`. -/
def heapFinal {α : Type} [Inhabited α] (less : α → α → Bool)
    (first : Nat) : Nat → List α → List α
  | 0, l => siftDownGo less (swapL l first (first + 0)) 0 0 first
  | i + 1, l =>
    heapFinal less first i (siftDownGo less (swapL l first (first + (i + 1))) 0 (i + 1) first)

/-- Go `heapSort_func(data, a, b)`. -/
def heapSortGo {α : Type} [Inhabited α] (less : α → α → Bool)
    (l : List α) (a b : Nat) : List α :=
  let first := a
  let hi := b - a
  let l1 := heapBuild less hi first ((hi - 1) / 2) l
  if hi = 0 then l1 else heapFinal less first (hi - 1) l1

/-- Go `reverseRange_func(data, a, b)`: `i, j := a, b-1; for i < j {
data.Swap(i, j); i++; j-- }`. -/
def reverseRangeLoop {α : Type} [Inhabited α] :
    Nat → Nat → Nat → List α → List α
  | 0, _, _, l => l
  | fuel + 1, i, j, l =>
    if i < j then reverseRangeLoop fuel (i + 1) (j - 1) (swapL l i j)
    else l

/-- Go `reverseRange_func(data, a, b)`. -/
def reverseRangeGo {α : Type} [Inhabited α] (l : List α) (a b : Nat) : List α :=
  reverseRangeLoop (b - a) a (b - 1) l

/-- Go `order2_func(data, a, b, &swaps)`: order two indices by the data
they point at, counting a swap. -/
def order2Go {α : Type} [Inhabited α] (less : α → α → Bool) (l : List α)
    (a b swaps : Nat) : Nat × Nat × Nat :=
  if less (getE l b) (getE l a) then (b, a, swaps + 1) else (a, b, swaps)

/-- Go `median_func(data, a, b, c, &swaps)`: index of the median of three. -/
def medianGo {α : Type} [Inhabited α] (less : α → α → Bool) (l : List α)
    (a b c swaps : Nat) : Nat × Nat :=
  let r1 := order2Go less l a b swaps
  let a1 := r1.1
  let b1 := r1.2.1
  let r2 := order2Go less l b1 c r1.2.2
  let b2 := r2.1
  let r3 := order2Go less l a1 b2 r2.2.2
  (r3.2.1, r3.2.2)

/-- Go `medianAdjacent_func(data, a, &swaps)`: median of `a-1, a, a+1`. -/
def medianAdjacentGo {α : Type} [Inhabited α] (less : α → α → Bool)
    (l : List α) (a swaps : Nat) : Nat × Nat :=
  medianGo less l (a - 1) a (a + 1) swaps

/-- Go `sortedHint` (`unknownHint`, `increasingHint`, `decreasingHint`). -/
inductive SortedHint where
  | unknown
  | increasing
  | decreasing
  deriving DecidableEq, Inhabited

/-- Go `choosePivot_func(data, a, b)`: a pivot index and a sortedness
hint, by plain median-of-three below 50 elements and median of three
adjacent medians (ninther) from 50 up. -/
def choosePivotGo {α : Type} [Inhabited α] (less : α → α → Bool)
    (l : List α) (a b : Nat) : Nat × SortedHint :=
  let lq := b - a
  let i := a + lq / 4 * 1
  let j := a + lq / 4 * 2
  let k := a + lq / 4 * 3
  if 8 ≤ lq then
    let step :=
      if 50 ≤ lq then
        let ri := medianAdjacentGo less l i 0
        let rj := medianAdjacentGo less l j ri.2
        let rk := medianAdjacentGo less l k rj.2
        (ri.1, rj.1, rk.1, rk.2)
      else (i, j, k, 0)
    let rm := medianGo less l step.1 step.2.1 step.2.2.1 step.2.2.2
    let j1 := rm.1
    let swaps := rm.2
    if swaps = 0 then (j1, SortedHint.increasing)
    else if swaps = 12 then (j1, SortedHint.decreasing)
    else (j1, SortedHint.unknown)
  else (j, SortedHint.unknown)

/-- Scan of `partition_func`: `for i <= j && data.Less(i, a) { i++ }`. -/
def partScanI {α : Type} [Inhabited α] (less : α → α → Bool) (l : List α)
    (a j : Nat) : Nat → Nat → Nat
  | 0, i => i
  | fuel + 1, i =>
    if i ≤ j ∧ less (getE l i) (getE l a) then partScanI less l a j fuel (i + 1)
    else i

/-- Scan of `partition_func`: `for i <= j && !data.Less(j, a) { j-- }`. -/
def partScanJ {α : Type} [Inhabited α] (less : α → α → Bool) (l : List α)
    (a i : Nat) : Nat → Nat → Nat
  | 0, j => j
  | fuel + 1, j =>
    if i ≤ j ∧ ¬ less (getE l j) (getE l a) then partScanJ less l a i fuel (j - 1)
    else j

/-- Main loop of `partition_func`: scan from both ends, swap, repeat. -/
def partitionLoop {α : Type} [Inhabited α] (less : α → α → Bool)
    (a b : Nat) : Nat → Nat → Nat → List α → List α × Nat
  | 0, _, j, l => (l, j)
  | fuel + 1, i, j, l =>
    let i1 := partScanI less l a j (b + 1) i
    let j1 := partScanJ less l a i1 (b + 1) j
    if i1 > j1 then (l, j1)
    else partitionLoop less a b fuel (i1 + 1) (j1 - 1) (swapL l i1 j1)

/-- Go `partition_func(data, a, b, pivot)`: Hoare partition around the
value moved to index `a`; returns the new list, the pivot's final index
and Go's `alreadyPartitioned` flag. -/
def partitionGo {α : Type} [Inhabited α] (less : α → α → Bool)
    (l : List α) (a b pivot : Nat) : List α × Nat × Bool :=
  let l0 := swapL l a pivot
  let i0 := a + 1
  let j0 := b - 1
  let i1 := partScanI less l0 a j0 (b + 1) i0
  let j1 := partScanJ less l0 a i1 (b + 1) j0
  if i1 > j1 then (swapL l0 j1 a, j1, true)
  else
    let r := partitionLoop less a b (b + 1) (i1 + 1) (j1 - 1) (swapL l0 i1 j1)
    (swapL r.1 r.2 a, r.2, false)

/-- Scan of `partitionEqual_func`: `for i <= j && !data.Less(a, i) { i++ }`. -/
def partEqScanI {α : Type} [Inhabited α] (less : α → α → Bool) (l : List α)
    (a j : Nat) : Nat → Nat → Nat
  | 0, i => i
  | fuel + 1, i =>
    if i ≤ j ∧ ¬ less (getE l a) (getE l i) then partEqScanI less l a j fuel (i + 1)
    else i

/-- Scan of `partitionEqual_func`: `for i <= j && data.Less(a, j) { j-- }`. -/
def partEqScanJ {α : Type} [Inhabited α] (less : α → α → Bool) (l : List α)
    (a i : Nat) : Nat → Nat → Nat
  | 0, j => j
  | fuel + 1, j =>
    if i ≤ j ∧ less (getE l a) (getE l j) then partEqScanJ less l a i fuel (j - 1)
    else j

/-- Loop of `partitionEqual_func`. -/
def partitionEqualLoop {α : Type} [Inhabited α] (less : α → α → Bool)
    (a b : Nat) : Nat → Nat → Nat → List α → List α × Nat
  | 0, i, _, l => (l, i)
  | fuel + 1, i, j, l =>
    let i1 := partEqScanI less l a j (b + 1) i
    let j1 := partEqScanJ less l a i1 (b + 1) j
    if i1 > j1 then (l, i1)
    else partitionEqualLoop less a b fuel (i1 + 1) (j1 - 1) (swapL l i1 j1)

/-- Go `partitionEqual_func(data, a, b, pivot)`: groups elements equal to
the pivot at the front; returns the new list and the first index past the
equal run. -/
def partitionEqualGo {α : Type} [Inhabited α] (less : α → α → Bool)
    (l : List α) (a b pivot : Nat) : List α × Nat :=
  let l0 := swapL l a pivot
  let r := partitionEqualLoop less a b (b + 1) (a + 1) (b - 1) l0
  r

/-- Advance scan of `partialInsertionSort_func`: `for i < b &&
!data.Less(i, i-1) { i++ }`. -/
def pisAdvance {α : Type} [Inhabited α] (less : α → α → Bool) (l : List α)
    (b : Nat) : Nat → Nat → Nat
  | 0, i => i
  | fuel + 1, i =>
    if i < b ∧ ¬ less (getE l i) (getE l (i - 1)) then pisAdvance less l b fuel (i + 1)
    else i

/-- Left shift loop of `partialInsertionSort_func`: `for j := i - 1; j >=
1; j-- { if !data.Less(j, j-1) break; data.Swap(j, j-1) }`. -/
def pisShiftLeft {α : Type} [Inhabited α] (less : α → α → Bool) :
    Nat → List α → List α
  | 0, l => l
  | j + 1, l =>
    if ¬ less (getE l (j + 1)) (getE l j) then l
    else pisShiftLeft less j (swapL l (j + 1) j)

/-- Right shift loop of `partialInsertionSort_func`: `for j := i + 1; j <
b; j++ { if !data.Less(j, j-1) break; data.Swap(j, j-1) }`. -/
def pisShiftRight {α : Type} [Inhabited α] (less : α → α → Bool) (b : Nat) :
    Nat → Nat → List α → List α
  | 0, _, l => l
  | fuel + 1, j, l =>
    if j < b then
      if ¬ less (getE l j) (getE l (j - 1)) then l
      else pisShiftRight less b fuel (j + 1) (swapL l j (j - 1))
    else l

/-- The `maxSteps = 5` outer loop of `partialInsertionSort_func`. -/
def pisSteps {α : Type} [Inhabited α] (less : α → α → Bool) (a b : Nat) :
    Nat → Nat → List α → List α × Bool
  | 0, _, l => (l, false)
  | steps + 1, i, l =>
    let i1 := pisAdvance less l b (b + 1) i
    if i1 = b then (l, true)
    else if b - a < 50 then (l, false)
    else
      let l1 := swapL l i1 (i1 - 1)
      let l2 := if 2 ≤ i1 - a then pisShiftLeft less (i1 - 1) l1 else l1
      let l3 := if 2 ≤ b - i1 then pisShiftRight less b (b + 1) (i1 + 1) l2 else l2
      pisSteps less a b steps i1 l3

/-- Go `partialInsertionSort_func(data, a, b)`: returns the (possibly
partially sorted) list and whether it finished sorting the range. -/
def partialInsertionSortGo {α : Type} [Inhabited α] (less : α → α → Bool)
    (l : List α) (a b : Nat) : List α × Bool :=
  pisSteps less a b 5 (a + 1) l

/-- Go `bits.Len(uint(n))`: position of the highest set bit. -/
def bitsLen (n : Nat) : Nat :=
  if n = 0 then 0 else Nat.log2 n + 1

/-- Go `nextPowerOfTwo(length) = 1 << bits.Len(uint(length))`. -/
def nextPowerOfTwo (length : Nat) : Nat :=
  1 <<< bitsLen length

/-- Go `xorshift.Next()` on a `uint64` state. -/
def xorshiftNext (x : Nat) : Nat :=
  let m := 2 ^ 64
  let x1 := (x ^^^ (x <<< 13)) % m
  let x2 := (x1 ^^^ (x1 >>> 17)) % m
  let x3 := (x2 ^^^ (x2 <<< 5)) % m
  x3

/-- One swap of `breakPatterns_func`'s 3-iteration loop. -/
def breakPatternsStep {α : Type} [Inhabited α] (length modulus a idx i : Nat)
    (st : Nat × List α) : Nat × List α :=
  let random := xorshiftNext st.1
  let other0 := random &&& (modulus - 1)
  let other := if other0 ≥ length then other0 - length else other0
  (random, swapL st.2 (idx - 1 + i) (a + other))

/-- Go `breakPatterns_func(data, a, b)`: swaps three pseudo-randomly
chosen elements around the middle of the range when it has at least 8
elements. -/
def breakPatternsGo {α : Type} [Inhabited α] (l : List α) (a b : Nat) : List α :=
  let length := b - a
  if 8 ≤ length then
    let modulus := nextPowerOfTwo length
    let idx := a + length / 4 * 2 - 1
    let s0 : Nat × List α := (length, l)
    let s1 := breakPatternsStep length modulus a idx 0 s0
    let s2 := breakPatternsStep length modulus a idx 1 s1
    let s3 := breakPatternsStep length modulus a idx 2 s2
    s3.2
  else l

/-- Go `pdqsort_func(data, a, b, limit)`: the iterations of its `for` loop
and its recursive calls, fuel-counted; every self call is on a strictly
shorter range, so fuel `b - a + 1` at the top is enough for the embedding
to compute exactly what the Go function computes. -/
def pdqLoop {α : Type} [Inhabited α] (less : α → α → Bool) :
    Nat → List α → Nat → Nat → Nat → Bool → Bool → List α
  | 0, l, _, _, _, _, _ => l
  | fuel + 1, l, a, b, limit, wasBalanced, wasPartitioned =>
    let length := b - a
    if length ≤ 12 then insertionSortGo less l a b
    else if limit = 0 then heapSortGo less l a b
    else
      let l1 := if wasBalanced then l else breakPatternsGo l a b
      let limit1 := if wasBalanced then limit else limit - 1
      let pc := choosePivotGo less l1 a b
      let l2 := match pc.2 with
        | SortedHint.decreasing => reverseRangeGo l1 a b
        | _ => l1
      let pivot := match pc.2 with
        | SortedHint.decreasing => (b - 1) - (pc.1 - a)
        | _ => pc.1
      let hint := match pc.2 with
        | SortedHint.decreasing => SortedHint.increasing
        | h => h
      let attempt :=
        if wasBalanced ∧ wasPartitioned ∧ hint = SortedHint.increasing then
          partialInsertionSortGo less l2 a b
        else (l2, false)
      if attempt.2 then attempt.1
      else
        let l3 := attempt.1
        if 0 < a ∧ ¬ less (getE l3 (a - 1)) (getE l3 pivot) then
          let pe := partitionEqualGo less l3 a b pivot
          pdqLoop less fuel pe.1 pe.2 b limit1 wasBalanced wasPartitioned
        else
          let pr := partitionGo less l3 a b pivot
          let mid := pr.2.1
          let wasPartitioned1 := pr.2.2
          let leftLen := mid - a
          let rightLen := b - mid
          let balanceThreshold := length / 8
          let wasBalanced1 := decide (min leftLen rightLen ≥ balanceThreshold)
          if leftLen < rightLen then
            let l4 := pdqLoop less fuel pr.1 a mid limit1 true true
            pdqLoop less fuel l4 (mid + 1) b limit1 wasBalanced1 wasPartitioned1
          else
            let l4 := pdqLoop less fuel pr.1 (mid + 1) b limit1 true true
            pdqLoop less fuel l4 a mid limit1 wasBalanced1 wasPartitioned1

/-- Go `sort.Slice(x, less)`: `pdqsort_func(lessSwap, 0, length,
bits.Len(uint(length)))` with both `wasBalanced` and `wasPartitioned`
starting `true`. -/
def sortSliceGo {α : Type} [Inhabited α] (less : α → α → Bool) (l : List α) :
    List α :=
  pdqLoop less (l.length + 1) l 0 l.length (bitsLen l.length) true true

namespace Tui

/-- The loop body of `getProcessesIO` (src/main.go lines 87-135) for one
process whose `Name()` and `IOCounters()` calls succeeded: zero values for
failed CPU/memory queries, the non-empty open-file paths, and the rate
lookup that scans `processStats` — the slice being built from the current
batch — for the first entry with the same pid. -/
def mkStat (processStats : List ProcessIOStat) (p : EnumProc) (nm : String)
    (ioStats : IOCountersStat) : ProcessIOStat :=
  let cpuPercent : ℚ := match p.cpuPercent with | .ok v => v | .error _ => 0
  let memPercent : ℚ := match p.memPercent with | .ok v => v | .error _ => 0
  let openFiles := match p.openFiles with | .ok fs => fs | .error _ => []
  let files : List String :=
    openFiles.filterMap (fun f => if f.path ≠ "" then some f.path else none)
  let currentRead : ℚ := (ioStats.readBytes : ℚ)
  let currentWrite : ℚ := (ioStats.writeBytes : ℚ)
  let rates : ℚ × ℚ :=
    match processStats.find? (fun prev => prev.PID == p.pid) with
    | some prev => (currentRead - prev.LastRead, currentWrite - prev.LastWrite)
    | none => (0, 0)
  { PID := p.pid, Name := nm, ReadBytes := currentRead,
    WriteBytes := currentWrite, LastRead := currentRead,
    LastWrite := currentWrite, ReadRate := rates.1, WriteRate := rates.2,
    OpenFiles := files, CPUPercent := cpuPercent, MemPercent := memPercent }

/-- The `for _, p := range processes` loop of `getProcessesIO`
(src/main.go lines 87-135): skip a process whose `Name()` or
`IOCounters()` fails, append a `ProcessIO` entry otherwise. -/
def buildStatsLoop : List ProcessIOStat → List EnumProc → List ProcessIOStat
  | acc, [] => acc
  | acc, p :: rest =>
    match p.name with
    | .error _ => buildStatsLoop acc rest
    | .ok nm =>
      match p.ioCounters with
      | .error _ => buildStatsLoop acc rest
      | .ok ioStats => buildStatsLoop (acc ++ [mkStat acc p nm ioStats]) rest

/-- Go `getProcessesIO` of the termui variant (src/main.go lines 80-149):
propagate a batch-level enumeration error, otherwise build the stats and
sort them with `sort.Slice` under the current sort key. -/
def getProcessesIOStats (k : SortBy) (processes : Except String (List EnumProc)) :
    Except String (List ProcessIOStat) :=
  match processes with
  | .error e => .error e
  | .ok ps => .ok (sortSliceGo (lessFor k) (buildStatsLoop [] ps))

/-- Header row of the table (src/main.go line 183). -/
def headerRowTui : List String :=
  ["PID", "Name", "CPU%", "MEM%", "Read/s", "Write/s", "Open Files"]

/-- Go `strings.Join(files, sep)`. -/
def joinSep (sep : String) : List String → String
  | [] => ""
  | [x] => x
  | x :: rest => x ++ sep ++ joinSep sep rest

/-- The open-files cell (src/main.go lines 199-208): a dash when empty,
else at most 3 paths joined by newlines. -/
def openFilesCell (files : List String) : String :=
  if files.length = 0 then "-"
  else joinSep "\n" (if files.length > 3 then files.take 3 else files)

/-- One table row (src/main.go lines 191-210). -/
def rowOf (p : ProcessIOStat) : List String :=
  [toString p.PID, p.Name, formatFixed 1 p.CPUPercent,
   formatFixed 1 p.MemPercent, humanizeBytes p.ReadRate,
   humanizeBytes p.WriteRate, openFilesCell p.OpenFiles]

/-- The truncation of `draw` (src/main.go lines 184-187 and 191):
`maxProcesses := len(processes); if maxProcesses > 20 { maxProcesses = 20
}` and the slice `processes[:maxProcesses]`, applied to the already sorted
batch. -/
def truncateTui (processes : List ProcessIOStat) : List ProcessIOStat :=
  processes.take (if processes.length > 20 then 20 else processes.length)

/-- The table-rows part of `draw` (src/main.go lines 168-214): on a batch
fetch error, log and return leaving `table.Rows` untouched; otherwise
header plus one row per process of the truncated sorted batch. -/
def drawTui (k : SortBy) (fetch : Except String (List EnumProc))
    (rows : List (List String)) : List (List String) :=
  match getProcessesIOStats k fetch with
  | .error _ => rows
  | .ok processes => headerRowTui :: (truncateTui processes).map rowOf

/-- One event of the termui select loop (src/main.go lines 221-242): a
termui `Event` identified by its `ID` string, or a ticker firing. -/
inductive TuiEvent where
  | uiEvent (id : String)
  | tick
  deriving DecidableEq

/-- The mutable state the termui event loop owns: the global `currentSort`
and the widget's `table.Rows`. -/
structure TuiState where
  currentSort : SortBy
  rows : List (List String)
  deriving DecidableEq

/-- One iteration of the select loop (src/main.go lines 221-242).  `fetch`
is the enumeration the metrics collaborator would return if `draw` runs
during this event; `none` models the `return` on a quit key.  The sort
keys `r`, `w`, `c` update `currentSort` and call `draw()` in the same
case; `<Resize>` and the ticker call `draw()` with the sort unchanged. -/
def mainStep (fetch : Except String (List EnumProc)) (ev : TuiEvent)
    (s : TuiState) : Option TuiState :=
  match ev with
  | .tick => some { s with rows := drawTui s.currentSort fetch s.rows }
  | .uiEvent id =>
    if id = "q" ∨ id = "<C-c>" then none
    else if id = "r" then
      some { currentSort := SortBy.SortByRead,
             rows := drawTui SortBy.SortByRead fetch s.rows }
    else if id = "w" then
      some { currentSort := SortBy.SortByWrite,
             rows := drawTui SortBy.SortByWrite fetch s.rows }
    else if id = "c" then
      some { currentSort := SortBy.SortByCPU,
             rows := drawTui SortBy.SortByCPU fetch s.rows }
    else if id = "<Resize>" then
      some { s with rows := drawTui s.currentSort fetch s.rows }
    else some s

/-- The select loop run over a finite schedule of events, each paired with
the enumeration outcome at that moment; stops when a quit key fires. -/
def runTui : List (Except String (List EnumProc) × TuiEvent) → TuiState → TuiState
  | [], s => s
  | (fetch, ev) :: rest, s =>
    match mainStep fetch ev s with
    | none => s
    | some s1 => runTui rest s1

end Tui

namespace Tea

/-- Go `type ProcessIO struct` of the bubbletea variant
(src/unnamed/part_000 lines 22-30): no rate fields, only the cumulative
counters. -/
structure ProcessIOStat where
  PID : Int
  Name : String
  ReadBytes : ℚ
  WriteBytes : ℚ
  OpenFiles : List String
  CPUPercent : ℚ
  MemPercent : ℚ
  deriving DecidableEq, Inhabited

/-- The loop body of the bubbletea `getProcessesIO`
(src/unnamed/part_000 lines 66-97) for one process whose `Name()` and
`IOCounters()` succeeded. -/
def mkStat (p : EnumProc) (nm : String) (ioStats : IOCountersStat) :
    ProcessIOStat :=
  let cpuPercent : ℚ := match p.cpuPercent with | .ok v => v | .error _ => 0
  let memPercent : ℚ := match p.memPercent with | .ok v => v | .error _ => 0
  let openFiles := match p.openFiles with | .ok fs => fs | .error _ => []
  let files : List String :=
    openFiles.filterMap (fun f => if f.path ≠ "" then some f.path else none)
  { PID := p.pid, Name := nm, ReadBytes := (ioStats.readBytes : ℚ),
    WriteBytes := (ioStats.writeBytes : ℚ), OpenFiles := files,
    CPUPercent := cpuPercent, MemPercent := memPercent }

/-- The `for _, p := range processes` loop of the bubbletea
`getProcessesIO` (src/unnamed/part_000 lines 65-97). -/
def buildStatsLoop : List ProcessIOStat → List EnumProc → List ProcessIOStat
  | acc, [] => acc
  | acc, p :: rest =>
    match p.name with
    | .error _ => buildStatsLoop acc rest
    | .ok nm =>
      match p.ioCounters with
      | .error _ => buildStatsLoop acc rest
      | .ok ioStats => buildStatsLoop (acc ++ [mkStat p nm ioStats]) rest

/-- The `less` closure of the bubbletea variant's `sort.Slice`
(src/unnamed/part_000 lines 99-101): CPU descending only. -/
def lessTea (x y : ProcessIOStat) : Bool :=
  decide (y.CPUPercent < x.CPUPercent)

/-- Go `getProcessesIO` of the bubbletea variant (src/unnamed/part_000
lines 59-104). -/
def getProcessesIOStats (processes : Except String (List EnumProc)) :
    Except String (List ProcessIOStat) :=
  match processes with
  | .error e => .error e
  | .ok ps => .ok (sortSliceGo lessTea (buildStatsLoop [] ps))

/-- Go `type model struct` (src/unnamed/part_000 lines 16-20). -/
structure Model where
  processes : List ProcessIOStat
  selected : Int
  showFiles : Bool
  deriving DecidableEq

/-- One process line of `model.View` (src/unnamed/part_000 lines 156 and
164): `fmt.Sprintf("%s%d\t%s\t%.1f\t%.1f\t%s\t%s\n", cursor, p.PID,
p.Name, p.CPUPercent, p.MemPercent, humanizeBytes(p.ReadBytes),
humanizeBytes(p.WriteBytes))` — the Read/s and Write/s columns hold the
humanized cumulative counters. -/
def rowLine (cursor : String) (p : ProcessIOStat) : String :=
  cursor ++ toString p.PID ++ "\t" ++ p.Name ++ "\t" ++
    formatFixed 1 p.CPUPercent ++ "\t" ++ formatFixed 1 p.MemPercent ++ "\t" ++
    humanizeBytes p.ReadBytes ++ "\t" ++ humanizeBytes p.WriteBytes ++ "\n"

/-- The `for i, p := range m.processes` loop of `model.View`
(src/unnamed/part_000 lines 151-165). -/
def viewRowsAux (m : Model) : Nat → List ProcessIOStat → String
  | _, [] => ""
  | i, p :: rest =>
    let piece :=
      if (i : Int) = m.selected then
        if m.showFiles then
          rowLine ">" p ++ "Open files:\n" ++
            String.join (p.OpenFiles.map (fun file => "\t" ++ file ++ "\n"))
        else rowLine ">" p
      else rowLine " " p
    piece ++ viewRowsAux m (i + 1) rest

/-- Go `model.View` (src/unnamed/part_000 lines 145-169), with the system
gauges supplied by the `getSystemStats` collaborator as parameters. -/
def view (cpuPercent memPercent : ℚ) (m : Model) : String :=
  "CPU Usage: " ++ formatFixed 1 cpuPercent ++ "% | Memory Usage: " ++
    formatFixed 1 memPercent ++ "%\n\n" ++
    "PID\tName\tCPU%\tMEM%\tRead/s\tWrite/s\n" ++
    String.mk (List.replicate 80 '-') ++ "\n" ++
    viewRowsAux m 0 m.processes ++
    "\nPress up/down to select process, enter to show/hide files, q to quit"

end Tea

namespace RateTracker

/-- A cross-tick sample as the spec's RateTracker sees it: the process
identity and its cumulative counters (spec section 3, Sample; only the
fields the derivation reads). -/
structure Sample where
  pid : Int
  readBytes : ℚ
  writeBytes : ℚ
  deriving DecidableEq, Inhabited

/-- A Sample enriched with the derived rates (spec section 3, RateSample). -/
structure RateSample where
  sample : Sample
  readRate : ℚ
  writeRate : ℚ
  deriving DecidableEq, Inhabited

/-- The spec's rate derivation, stated here only to compare the source's
derivation against it (spec section 4.1): for each current Sample look up
the previous tick's entry with the same identity; if found, the rate is
the counter delta clamped at zero, otherwise zero. -/
def derive (current previous : List Sample) : List RateSample :=
  current.map fun s =>
    match previous.find? (fun q => q.pid == s.pid) with
    | some q =>
      { sample := s, readRate := max 0 (s.readBytes - q.readBytes),
        writeRate := max 0 (s.writeBytes - q.writeBytes) }
    | none => { sample := s, readRate := 0, writeRate := 0 }

end RateTracker

/-!
The library sort's documented contract, and concrete inputs used below.
`SortSliceContract` states what Go documents for `sort.Slice`: the result
is a permutation of the input ordered by the supplied comparison (it
deliberately does not state stability, which `sort.Slice` does not
promise).
-/

/-- A batch ordered descending by the selected key: no later element has a
strictly larger key than an earlier one. -/
abbrev SortedBy (k : SortBy) (l : List Tui.ProcessIOStat) : Prop :=
  l.Pairwise (fun x y => Tui.keyOf k y ≤ Tui.keyOf k x)

/-- Go's documented contract for `sort.Slice x less`: the slice is
reordered into a permutation of itself that is sorted under `less`. -/
abbrev SortSliceContract (k : SortBy) (ps out : List Tui.ProcessIOStat) : Prop :=
  out.Perm ps ∧ SortedBy k out

/-- An enumeration entry whose every per-process query succeeds. -/
def mkEnumOk (pid : Int) (cpu : ℚ) (rd wr : Nat) : EnumProc :=
  { pid := pid, name := Except.ok "p",
    ioCounters := Except.ok { readBytes := rd, writeBytes := wr },
    cpuPercent := Except.ok cpu, memPercent := Except.ok 0,
    openFiles := Except.ok [] }

/-- One process, pid 1, cumulative read counter 1500. -/
def entriesC1 : List EnumProc := [mkEnumOk 1 0 1500 0]

/-- The same process as the spec's RateTracker would see it this tick. -/
def currC1 : List RateTracker.Sample :=
  [{ pid := 1, readBytes := 1500, writeBytes := 0 }]

/-- The previous tick's batch: pid 1 had cumulative read counter 1000. -/
def prevC1 : List RateTracker.Sample :=
  [{ pid := 1, readBytes := 1000, writeBytes := 0 }]

/-- An enumeration carrying pid 1 twice with a decreasing read counter
(1000 then 800), the one shape under which the termui rate lookup finds a
match. -/
def entriesC3 : List EnumProc := [mkEnumOk 1 0 1000 0, mkEnumOk 1 0 800 0]

/-- The entry built from the first pid-1 element of `entriesC3`. -/
def statC3a : Tui.ProcessIOStat :=
  { PID := 1, Name := "p", ReadBytes := 1000, WriteBytes := 0,
    LastRead := 1000, LastWrite := 0, ReadRate := 0, WriteRate := 0,
    OpenFiles := [], CPUPercent := 0, MemPercent := 0 }

/-- The entry built from the second pid-1 element of `entriesC3`: its
read rate is the unclamped negative delta 800 − 1000. -/
def statC3b : Tui.ProcessIOStat :=
  { PID := 1, Name := "p", ReadBytes := 800, WriteBytes := 0,
    LastRead := 800, LastWrite := 0, ReadRate := -200, WriteRate := 0,
    OpenFiles := [], CPUPercent := 0, MemPercent := 0 }

/-- Thirteen processes with distinct pids; pids 1 and 7 share CPU% 5, and
pid 1 precedes pid 7 in enumeration order. -/
def entriesC5 : List EnumProc :=
  [mkEnumOk 1 5 0 0, mkEnumOk 2 9 0 0, mkEnumOk 3 8 0 0, mkEnumOk 4 7 0 0,
   mkEnumOk 5 6 0 0, mkEnumOk 6 4 0 0, mkEnumOk 7 5 0 0, mkEnumOk 8 3 0 0,
   mkEnumOk 9 2 0 0, mkEnumOk 10 1 0 0, mkEnumOk 11 0 0 0,
   mkEnumOk 12 10 0 0, mkEnumOk 13 11 0 0]

/-- Two processes with distinct pids and nonzero cumulative counters. -/
def entriesC2w : List EnumProc := [mkEnumOk 1 5 100 50, mkEnumOk 2 9 200 70]

/-- The batch the termui pipeline returns for `entriesC2w` (CPU
descending, both rates zero). -/
def outC2w : List Tui.ProcessIOStat :=
  [{ PID := 2, Name := "p", ReadBytes := 200, WriteBytes := 70,
     LastRead := 200, LastWrite := 70, ReadRate := 0, WriteRate := 0,
     OpenFiles := [], CPUPercent := 9, MemPercent := 0 },
   { PID := 1, Name := "p", ReadBytes := 100, WriteBytes := 50,
     LastRead := 100, LastWrite := 50, ReadRate := 0, WriteRate := 0,
     OpenFiles := [], CPUPercent := 5, MemPercent := 0 }]

/-- A process whose `CPUPercent()` query fails but whose name and IO
counters are available. -/
def entryC9 : EnumProc :=
  { pid := 1, name := Except.ok "idle",
    ioCounters := Except.ok { readBytes := 10, writeBytes := 0 },
    cpuPercent := Except.error (), memPercent := Except.ok 0,
    openFiles := Except.ok [] }

/-- A process whose `IOCounters()` query fails. -/
def entryC9io : EnumProc :=
  { pid := 2, name := Except.ok "p", ioCounters := Except.error (),
    cpuPercent := Except.ok 9, memPercent := Except.ok 0,
    openFiles := Except.ok [] }

/-- Three processes of which the middle one fails to report IO counters. -/
def trioC9 : List EnumProc := [mkEnumOk 1 5 10 0, entryC9io, mkEnumOk 3 1 30 0]

/-- The entry the pipeline builds for pid 1 of `trioC9`. -/
def statTrio1 : Tui.ProcessIOStat :=
  { PID := 1, Name := "p", ReadBytes := 10, WriteBytes := 0,
    LastRead := 10, LastWrite := 0, ReadRate := 0, WriteRate := 0,
    OpenFiles := [], CPUPercent := 5, MemPercent := 0 }

/-- The entry the pipeline builds for pid 3 of `trioC9`. -/
def statTrio3 : Tui.ProcessIOStat :=
  { PID := 3, Name := "p", ReadBytes := 30, WriteBytes := 0,
    LastRead := 30, LastWrite := 0, ReadRate := 0, WriteRate := 0,
    OpenFiles := [], CPUPercent := 1, MemPercent := 0 }

/-- The batch built from `trioC9`: the IO-failing pid 2 is absent. -/
def lC9 : List Tui.ProcessIOStat := [statTrio1, statTrio3]

/-- A bubbletea entry with 2 MiB of cumulative reads and no derived
rates anywhere in the variant. -/
def statC4 : Tea.ProcessIOStat :=
  { PID := 1, Name := "dd", ReadBytes := 2097152, WriteBytes := 0,
    OpenFiles := [], CPUPercent := 0, MemPercent := 0 }

/-- A bubbletea model holding only `statC4`, first row selected, files
collapsed. -/
def modelC4 : Tea.Model :=
  { processes := [statC4], selected := 0, showFiles := false }

/-- Unsorted two-element batch (CPU 30 then CPU 50). -/
def psC6w : List Tui.ProcessIOStat :=
  [{ PID := 1, Name := "a", ReadBytes := 0, WriteBytes := 0,
     LastRead := 0, LastWrite := 0, ReadRate := 0, WriteRate := 0,
     OpenFiles := [], CPUPercent := 30, MemPercent := 0 },
   { PID := 2, Name := "b", ReadBytes := 0, WriteBytes := 0,
     LastRead := 0, LastWrite := 0, ReadRate := 0, WriteRate := 0,
     OpenFiles := [], CPUPercent := 50, MemPercent := 0 }]

/-- `psC6w` sorted by CPU descending. -/
def outC6w : List Tui.ProcessIOStat :=
  [{ PID := 2, Name := "b", ReadBytes := 0, WriteBytes := 0,
     LastRead := 0, LastWrite := 0, ReadRate := 0, WriteRate := 0,
     OpenFiles := [], CPUPercent := 50, MemPercent := 0 },
   { PID := 1, Name := "a", ReadBytes := 0, WriteBytes := 0,
     LastRead := 0, LastWrite := 0, ReadRate := 0, WriteRate := 0,
     OpenFiles := [], CPUPercent := 30, MemPercent := 0 }]

/-!
Helper lemmas.  Every mutating function of the sort embedding is a
composition of `swapL` steps, so its output's elements are elements of its
input; these membership lemmas carry batch-wide invariants through
`sort.Slice`.
-/

lemma getE_mem {α : Type} [Inhabited α] (l : List α) (i : Nat)
    (h : i < l.length) : getE l i ∈ l := by
  unfold getE
  rw [List.getD_eq_getElem?_getD, List.getElem?_eq_getElem h]
  exact List.getElem_mem h

lemma swapL_subset {α : Type} [Inhabited α] (l : List α) (i j : Nat) :
    ∀ x ∈ swapL l i j, x ∈ l := by
  intro x hx
  unfold swapL at hx
  by_cases hc : i < l.length ∧ j < l.length
  · rw [if_pos hc] at hx
    rcases List.mem_or_eq_of_mem_set hx with hx1 | hx1
    · rcases List.mem_or_eq_of_mem_set hx1 with hx2 | hx2
      · exact hx2
      · rw [hx2]
        exact getE_mem l j hc.2
    · rw [hx1]
      exact getE_mem l i hc.1
  · rw [if_neg hc] at hx
    exact hx

lemma insertInner_subset {α : Type} [Inhabited α] (less : α → α → Bool)
    (a : Nat) : ∀ (j : Nat) (l : List α), ∀ x ∈ insertInner less a j l, x ∈ l := by
  intro j
  induction j with
  | zero => intro l x hx; exact hx
  | succ j ih =>
    intro l x hx
    simp only [insertInner] at hx
    split at hx
    · exact swapL_subset l (j + 1) j x (ih (swapL l (j + 1) j) x hx)
    · exact hx

lemma insertOuter_subset {α : Type} [Inhabited α] (less : α → α → Bool)
    (a b : Nat) : ∀ (fuel i : Nat) (l : List α),
      ∀ x ∈ insertOuter less a b fuel i l, x ∈ l := by
  intro fuel
  induction fuel with
  | zero => intro i l x hx; exact hx
  | succ fuel ih =>
    intro i l x hx
    simp only [insertOuter] at hx
    split at hx
    · exact insertInner_subset less a i l x (ih (i + 1) (insertInner less a i l) x hx)
    · exact hx

lemma insertionSortGo_subset {α : Type} [Inhabited α] (less : α → α → Bool)
    (l : List α) (a b : Nat) : ∀ x ∈ insertionSortGo less l a b, x ∈ l := by
  intro x hx
  exact insertOuter_subset less a b (b - a) (a + 1) l x hx

lemma siftDownLoop_subset {α : Type} [Inhabited α] (less : α → α → Bool)
    (hi first : Nat) : ∀ (fuel root : Nat) (l : List α),
      ∀ x ∈ siftDownLoop less hi first fuel root l, x ∈ l := by
  intro fuel
  induction fuel with
  | zero => intro root l x hx; exact hx
  | succ fuel ih =>
    intro root l x hx
    simp only [siftDownLoop] at hx
    split at hx
    · exact hx
    · split at hx
      · split at hx
        · exact hx
        · exact swapL_subset _ _ _ x (ih _ _ x hx)
      · split at hx
        · exact hx
        · exact swapL_subset _ _ _ x (ih _ _ x hx)

lemma siftDownGo_subset {α : Type} [Inhabited α] (less : α → α → Bool)
    (l : List α) (lo hi first : Nat) : ∀ x ∈ siftDownGo less l lo hi first, x ∈ l := by
  intro x hx
  exact siftDownLoop_subset less hi first (hi + 1) lo l x hx

lemma heapBuild_subset {α : Type} [Inhabited α] (less : α → α → Bool)
    (hi first : Nat) : ∀ (i : Nat) (l : List α),
      ∀ x ∈ heapBuild less hi first i l, x ∈ l := by
  intro i
  induction i with
  | zero => intro l x hx; exact siftDownGo_subset less l 0 hi first x hx
  | succ i ih =>
    intro l x hx
    exact siftDownGo_subset less l (i + 1) hi first x (ih _ x hx)

lemma heapFinal_subset {α : Type} [Inhabited α] (less : α → α → Bool)
    (first : Nat) : ∀ (i : Nat) (l : List α),
      ∀ x ∈ heapFinal less first i l, x ∈ l := by
  intro i
  induction i with
  | zero =>
    intro l x hx
    exact swapL_subset _ _ _ x (siftDownGo_subset less _ 0 0 first x hx)
  | succ i ih =>
    intro l x hx
    exact swapL_subset _ _ _ x (siftDownGo_subset less _ 0 (i + 1) first x (ih _ x hx))

lemma heapSortGo_subset {α : Type} [Inhabited α] (less : α → α → Bool)
    (l : List α) (a b : Nat) : ∀ x ∈ heapSortGo less l a b, x ∈ l := by
  intro x hx
  simp only [heapSortGo] at hx
  split at hx
  · exact heapBuild_subset less (b - a) a _ l x hx
  · exact heapBuild_subset less (b - a) a _ l x (heapFinal_subset less a _ _ x hx)

lemma reverseRangeLoop_subset {α : Type} [Inhabited α] :
    ∀ (fuel i j : Nat) (l : List α), ∀ x ∈ reverseRangeLoop fuel i j l, x ∈ l := by
  intro fuel
  induction fuel with
  | zero => intro i j l x hx; exact hx
  | succ fuel ih =>
    intro i j l x hx
    simp only [reverseRangeLoop] at hx
    split at hx
    · exact swapL_subset _ _ _ x (ih _ _ _ x hx)
    · exact hx

lemma reverseRangeGo_subset {α : Type} [Inhabited α] (l : List α) (a b : Nat) :
    ∀ x ∈ reverseRangeGo l a b, x ∈ l := by
  intro x hx
  exact reverseRangeLoop_subset (b - a) a (b - 1) l x hx

lemma breakPatternsStep_subset {α : Type} [Inhabited α]
    (length modulus a idx i : Nat) (st : Nat × List α) :
    ∀ x ∈ (breakPatternsStep length modulus a idx i st).2, x ∈ st.2 := by
  intro x hx
  exact swapL_subset _ _ _ x hx

lemma breakPatternsGo_subset {α : Type} [Inhabited α] (l : List α) (a b : Nat) :
    ∀ x ∈ breakPatternsGo l a b, x ∈ l := by
  intro x hx
  simp only [breakPatternsGo] at hx
  split at hx
  · exact breakPatternsStep_subset _ _ _ _ _ _ x
      (breakPatternsStep_subset _ _ _ _ _ _ x
        (breakPatternsStep_subset _ _ _ _ _ _ x hx))
  · exact hx

lemma ite_list_subset {α : Type} {c : Prop} [Decidable c]
    {A B C : List α} (hA : ∀ x ∈ A, x ∈ C) (hB : ∀ x ∈ B, x ∈ C) :
    ∀ x ∈ (if c then A else B), x ∈ C := by
  intro x hx
  split at hx
  · exact hA x hx
  · exact hB x hx

lemma partitionLoop_subset {α : Type} [Inhabited α] (less : α → α → Bool)
    (a b : Nat) : ∀ (fuel i j : Nat) (l : List α),
      ∀ x ∈ (partitionLoop less a b fuel i j l).1, x ∈ l := by
  intro fuel
  induction fuel with
  | zero => intro i j l x hx; exact hx
  | succ fuel ih =>
    intro i j l x hx
    simp only [partitionLoop] at hx
    split at hx
    · exact hx
    · exact swapL_subset _ _ _ x (ih _ _ _ x hx)

lemma partitionGo_subset {α : Type} [Inhabited α] (less : α → α → Bool)
    (l : List α) (a b pivot : Nat) :
    ∀ x ∈ (partitionGo less l a b pivot).1, x ∈ l := by
  intro x hx
  simp only [partitionGo] at hx
  split at hx
  · exact swapL_subset _ _ _ x (swapL_subset _ _ _ x hx)
  · dsimp only at hx
    have h1 := swapL_subset _ _ _ x hx
    have h2 := partitionLoop_subset less a b _ _ _ _ x h1
    have h3 := swapL_subset _ _ _ x h2
    exact swapL_subset _ _ _ x h3

lemma partitionEqualLoop_subset {α : Type} [Inhabited α] (less : α → α → Bool)
    (a b : Nat) : ∀ (fuel i j : Nat) (l : List α),
      ∀ x ∈ (partitionEqualLoop less a b fuel i j l).1, x ∈ l := by
  intro fuel
  induction fuel with
  | zero => intro i j l x hx; exact hx
  | succ fuel ih =>
    intro i j l x hx
    simp only [partitionEqualLoop] at hx
    split at hx
    · exact hx
    · exact swapL_subset _ _ _ x (ih _ _ _ x hx)

lemma partitionEqualGo_subset {α : Type} [Inhabited α] (less : α → α → Bool)
    (l : List α) (a b pivot : Nat) :
    ∀ x ∈ (partitionEqualGo less l a b pivot).1, x ∈ l := by
  intro x hx
  simp only [partitionEqualGo] at hx
  exact swapL_subset _ _ _ x (partitionEqualLoop_subset less a b _ _ _ _ x hx)

lemma pisShiftLeft_subset {α : Type} [Inhabited α] (less : α → α → Bool) :
    ∀ (j : Nat) (l : List α), ∀ x ∈ pisShiftLeft less j l, x ∈ l := by
  intro j
  induction j with
  | zero => intro l x hx; exact hx
  | succ j ih =>
    intro l x hx
    simp only [pisShiftLeft] at hx
    split at hx
    · exact hx
    · exact swapL_subset _ _ _ x (ih _ x hx)

lemma pisShiftRight_subset {α : Type} [Inhabited α] (less : α → α → Bool)
    (b : Nat) : ∀ (fuel j : Nat) (l : List α),
      ∀ x ∈ pisShiftRight less b fuel j l, x ∈ l := by
  intro fuel
  induction fuel with
  | zero => intro j l x hx; exact hx
  | succ fuel ih =>
    intro j l x hx
    simp only [pisShiftRight] at hx
    split at hx
    · split at hx
      · exact hx
      · exact swapL_subset _ _ _ x (ih _ _ x hx)
    · exact hx

lemma pisSteps_subset {α : Type} [Inhabited α] (less : α → α → Bool)
    (a b : Nat) : ∀ (steps i : Nat) (l : List α),
      ∀ x ∈ (pisSteps less a b steps i l).1, x ∈ l := by
  intro steps
  induction steps with
  | zero => intro i l x hx; exact hx
  | succ steps ih =>
    intro i l x hx
    simp only [pisSteps] at hx
    split at hx
    · exact hx
    · split at hx
      · exact hx
      · have h1 := ih _ _ x hx
        split at h1
        · have h2 := pisShiftRight_subset less b _ _ _ x h1
          split at h2
          · exact swapL_subset _ _ _ x (pisShiftLeft_subset less _ _ x h2)
          · exact swapL_subset _ _ _ x h2
        · split at h1
          · exact swapL_subset _ _ _ x (pisShiftLeft_subset less _ _ x h1)
          · exact swapL_subset _ _ _ x h1

lemma partialInsertionSortGo_subset {α : Type} [Inhabited α]
    (less : α → α → Bool) (l : List α) (a b : Nat) :
    ∀ x ∈ (partialInsertionSortGo less l a b).1, x ∈ l := by
  intro x hx
  exact pisSteps_subset less a b 5 (a + 1) l x hx

set_option maxHeartbeats 1000000 in
lemma pdqLoop_subset {α : Type} [Inhabited α] (less : α → α → Bool) :
    ∀ (fuel : Nat) (l : List α) (a b limit : Nat) (wasB wasP : Bool),
      ∀ x ∈ pdqLoop less fuel l a b limit wasB wasP, x ∈ l := by
  intro fuel
  induction fuel with
  | zero => intro l a b limit wasB wasP x hx; exact hx
  | succ fuel ih =>
    intro l a b limit wasB wasP x hx
    simp only [pdqLoop] at hx
    split at hx
    · exact insertionSortGo_subset less l a b x hx
    · split at hx
      · exact heapSortGo_subset less l a b x hx
      · repeat' split at hx
        all_goals
          repeat
            first
            | exact hx
            | (replace hx := ih _ _ _ _ _ _ x hx)
            | (replace hx := partitionGo_subset less _ _ _ _ x hx)
            | (replace hx := partitionEqualGo_subset less _ _ _ _ x hx)
            | (replace hx := partialInsertionSortGo_subset less _ _ _ x hx)
            | (replace hx := pisSteps_subset less _ _ _ _ _ x hx)
            | (replace hx := reverseRangeGo_subset _ _ _ x hx)
            | (replace hx := breakPatternsGo_subset _ _ _ x hx)
            | (replace hx := swapL_subset _ _ _ x hx)
            | (dsimp only at hx)

lemma sortSliceGo_subset {α : Type} [Inhabited α] (less : α → α → Bool)
    (l : List α) : ∀ x ∈ sortSliceGo less l, x ∈ l := by
  intro x hx
  exact pdqLoop_subset less (l.length + 1) l 0 l.length (bitsLen l.length) true true x hx

lemma buildStatsLoop_rates_zero :
    ∀ (entries : List EnumProc) (acc : List Tui.ProcessIOStat),
      (∀ x ∈ acc, x.ReadRate = 0 ∧ x.WriteRate = 0) →
      (∀ x ∈ acc, ∀ e ∈ entries, x.PID ≠ e.pid) →
      (entries.map EnumProc.pid).Nodup →
      ∀ x ∈ Tui.buildStatsLoop acc entries, x.ReadRate = 0 ∧ x.WriteRate = 0 := by
  intro entries
  induction entries with
  | nil =>
    intro acc h1 _ _ x hx
    simp only [Tui.buildStatsLoop] at hx
    exact h1 x hx
  | cons p rest ih =>
    intro acc h1 h2 hnd x hx
    have hnd' : (rest.map EnumProc.pid).Nodup ∧ p.pid ∉ rest.map EnumProc.pid := by
      rw [List.map_cons, List.nodup_cons] at hnd
      exact ⟨hnd.2, hnd.1⟩
    simp only [Tui.buildStatsLoop] at hx
    rcases hn : p.name with e | nm
    · rw [hn] at hx
      exact ih acc h1 (fun y hy e' he' => h2 y hy e' (List.mem_cons_of_mem _ he')) hnd'.1 x hx
    · rw [hn] at hx
      rcases hio : p.ioCounters with e | ioSt
      · rw [hio] at hx
        exact ih acc h1 (fun y hy e' he' => h2 y hy e' (List.mem_cons_of_mem _ he')) hnd'.1 x hx
      · rw [hio] at hx
        have hfind : acc.find? (fun prev => prev.PID == p.pid) = none := by
          apply List.find?_eq_none.mpr
          intro prev hprev hbeq
          exact h2 prev hprev p (List.mem_cons_self p rest) (by simpa using hbeq)
        have hmk : (Tui.mkStat acc p nm ioSt).ReadRate = 0 ∧
            (Tui.mkStat acc p nm ioSt).WriteRate = 0 := by
          simp [Tui.mkStat, hfind]
        have hpid : (Tui.mkStat acc p nm ioSt).PID = p.pid := rfl
        refine ih (acc ++ [Tui.mkStat acc p nm ioSt]) ?_ ?_ hnd'.1 x hx
        · intro y hy
          rcases List.mem_append.mp hy with h | h
          · exact h1 y h
          · rw [List.mem_singleton.mp h]
            exact hmk
        · intro y hy e' he'
          rcases List.mem_append.mp hy with h | h
          · exact h2 y h e' (List.mem_cons_of_mem _ he')
          · rw [List.mem_singleton.mp h, hpid]
            intro hEq
            exact hnd'.2 (hEq ▸ List.mem_map_of_mem EnumProc.pid he')

lemma buildStatsLoop_origin :
    ∀ (entries : List EnumProc) (acc : List Tui.ProcessIOStat),
      ∀ x ∈ Tui.buildStatsLoop acc entries,
        x ∈ acc ∨ ∃ e ∈ entries, (∃ nm, e.name = Except.ok nm) ∧
          (∃ st, e.ioCounters = Except.ok st) ∧ x.PID = e.pid := by
  intro entries
  induction entries with
  | nil =>
    intro acc x hx
    simp only [Tui.buildStatsLoop] at hx
    exact Or.inl hx
  | cons p rest ih =>
    intro acc x hx
    simp only [Tui.buildStatsLoop] at hx
    rcases hn : p.name with e | nm
    · rw [hn] at hx
      rcases ih acc x hx with h | ⟨e', he', h⟩
      · exact Or.inl h
      · exact Or.inr ⟨e', List.mem_cons_of_mem _ he', h⟩
    · rw [hn] at hx
      rcases hio : p.ioCounters with e | ioSt
      · rw [hio] at hx
        rcases ih acc x hx with h | ⟨e', he', h⟩
        · exact Or.inl h
        · exact Or.inr ⟨e', List.mem_cons_of_mem _ he', h⟩
      · rw [hio] at hx
        rcases ih (acc ++ [Tui.mkStat acc p nm ioSt]) x hx with h | ⟨e', he', h⟩
        · rcases List.mem_append.mp h with h' | h'
          · exact Or.inl h'
          · refine Or.inr ⟨p, List.mem_cons_self p rest, ⟨nm, hn⟩, ⟨ioSt, hio⟩, ?_⟩
            rw [List.mem_singleton.mp h']
            simp [Tui.mkStat]
        · exact Or.inr ⟨e', List.mem_cons_of_mem _ he', h⟩

lemma buildC3 : Tui.buildStatsLoop [] entriesC3 = [statC3a, statC3b] := by
  norm_num [entriesC3, mkEnumOk, Tui.buildStatsLoop, Tui.mkStat, List.find?,
    statC3a, statC3b]

set_option maxRecDepth 100000 in
lemma sortC3 :
    sortSliceGo (Tui.lessFor SortBy.SortByCPU) [statC3a, statC3b] =
      [statC3a, statC3b] := by decide

lemma formatFixed_of_roundHalfEven (prec : Nat) (q : ℚ) (m : Nat)
    (hq : ¬ q < 0) (h : roundHalfEven (q * 10 ^ prec) = (m : ℤ)) :
    formatFixed prec q =
      toString (m / 10 ^ prec) ++ "." ++ padZeros prec (toString (m % 10 ^ prec)) := by
  simp [formatFixed, hq, formatFixedNN, h]

lemma humanizeBytes_eval (b v : ℚ) (u : Nat) (s : String)
    (hl : humanizeLoop 4 b 0 = (v, u)) (hf : formatFixed 2 v = s) :
    humanizeBytes b = s ++ " " ++ humanizeUnits.getD u "" := by
  unfold humanizeBytes
  rw [show humanizeUnits.length - 1 = 4 from rfl, hl]
  dsimp only
  rw [hf]

lemma hl_zero : humanizeLoop 4 0 0 = (0, 0) := by
  simp only [humanizeLoop]
  norm_num [humanizeUnits]

lemma ff_zero : formatFixed 2 0 = "0.00" := by
  have h : roundHalfEven ((0 : ℚ) * 10 ^ 2) = ((0 : Nat) : ℤ) := by
    norm_num [roundHalfEven]
  rw [formatFixed_of_roundHalfEven 2 0 0 (by norm_num) h]
  decide

lemma humanize_zero : humanizeBytes 0 = "0.00 B" := by
  rw [humanizeBytes_eval 0 0 0 "0.00" hl_zero ff_zero]
  decide

lemma hl_1536 : humanizeLoop 4 1536 0 = (3/2, 1) := by
  simp only [humanizeLoop]
  norm_num [humanizeUnits]

lemma ff_3_2 : formatFixed 2 (3/2) = "1.50" := by
  have h : roundHalfEven ((3/2 : ℚ) * 10 ^ 2) = ((150 : Nat) : ℤ) := by
    norm_num [roundHalfEven]
  rw [formatFixed_of_roundHalfEven 2 (3/2) 150 (by norm_num) h]
  decide

lemma humanize_1536 : humanizeBytes 1536 = "1.50 KB" := by
  rw [humanizeBytes_eval 1536 (3/2) 1 "1.50" hl_1536 ff_3_2]
  decide

lemma hl_gib : humanizeLoop 4 1073741824 0 = (1024, 2) := by
  simp only [humanizeLoop]
  norm_num [humanizeUnits]

lemma ff_1024 : formatFixed 2 1024 = "1024.00" := by
  have h : roundHalfEven ((1024 : ℚ) * 10 ^ 2) = ((102400 : Nat) : ℤ) := by
    norm_num [roundHalfEven]
  rw [formatFixed_of_roundHalfEven 2 1024 102400 (by norm_num) h]
  decide

lemma humanize_gib : humanizeBytes 1073741824 = "1024.00 MB" := by
  rw [humanizeBytes_eval 1073741824 1024 2 "1024.00" hl_gib ff_1024]
  decide

lemma hl_gib1 : humanizeLoop 4 1073741825 0 = (1073741825 / 1073741824, 3) := by
  simp only [humanizeLoop]
  norm_num [humanizeUnits]

lemma ff_gib1 : formatFixed 2 (1073741825 / 1073741824) = "1.00" := by
  have h : roundHalfEven ((1073741825 / 1073741824 : ℚ) * 10 ^ 2) = ((100 : Nat) : ℤ) := by
    norm_num [roundHalfEven]
  rw [formatFixed_of_roundHalfEven 2 (1073741825 / 1073741824) 100 (by norm_num) h]
  decide

lemma humanize_gib1 : humanizeBytes 1073741825 = "1.00 GB" := by
  rw [humanizeBytes_eval 1073741825 (1073741825 / 1073741824) 3 "1.00" hl_gib1 ff_gib1]
  decide

lemma hl_2mib : humanizeLoop 4 2097152 0 = (2, 2) := by
  simp only [humanizeLoop]
  norm_num [humanizeUnits]

lemma ff_2 : formatFixed 2 2 = "2.00" := by
  have h : roundHalfEven ((2 : ℚ) * 10 ^ 2) = ((200 : Nat) : ℤ) := by
    norm_num [roundHalfEven]
  rw [formatFixed_of_roundHalfEven 2 2 200 (by norm_num) h]
  decide

lemma humanize_2mib : humanizeBytes 2097152 = "2.00 MB" := by
  rw [humanizeBytes_eval 2097152 2 2 "2.00" hl_2mib ff_2]
  decide

lemma ff1_zero : formatFixed 1 0 = "0.0" := by
  have h : roundHalfEven ((0 : ℚ) * 10 ^ 1) = ((0 : Nat) : ℤ) := by
    norm_num [roundHalfEven]
  rw [formatFixed_of_roundHalfEven 1 0 0 (by norm_num) h]
  decide

lemma humanize_kb (b : ℚ) (h1 : 1024 < b) (h2 : b ≤ 1024 * 1024) :
    humanizeBytes b = formatFixed 2 (b / 1024) ++ " KB" := by
  have hc1 : 1024 < b ∧ (0 : Nat) < humanizeUnits.length - 1 :=
    ⟨h1, by norm_num [humanizeUnits]⟩
  have hc2 : ¬ (1024 < b / 1024 ∧ (1 : Nat) < humanizeUnits.length - 1) := by
    intro hc
    have hle : b / 1024 ≤ 1024 := by
      rw [div_le_iff₀ (by norm_num : (0:ℚ) < 1024)]
      linarith
    exact absurd hc.1 (not_lt.mpr hle)
  have hloop : humanizeLoop 4 b 0 = (b / 1024, 1) := by
    simp only [humanizeLoop]
    rw [if_pos hc1, if_neg hc2]
  unfold humanizeBytes
  rw [show humanizeUnits.length - 1 = 4 from rfl, hloop]
  dsimp only
  rw [show humanizeUnits.getD 1 "" = "KB" from rfl, String.append_assoc]
  rfl

/-!
The claims.
-/

set_option maxRecDepth 400000 in
/-- Claim C1.  The claim says the rate derivation matches each current
Sample against the previous tick's entry of the same identity.  The
termui `getProcessesIO` has no previous-tick input at all: its lookup
scans only the slice being built from the current batch, so for a process
whose counter grew from 1000 to 1500 across ticks the code reports rate 0
where the spec's cross-tick derivation reports 500. -/
theorem c1_rate_lookup_ignores_previous_tick :
    Except.map (List.map Tui.ProcessIOStat.ReadRate)
      (Tui.getProcessesIOStats SortBy.SortByCPU (Except.ok entriesC1)) =
      Except.ok [0] ∧
    (RateTracker.derive currC1 prevC1).map RateTracker.RateSample.readRate = [500] := by
  constructor
  · decide
  · norm_num [RateTracker.derive, currC1, prevC1, List.find?]

/-- Claim C2.  In the termui variant, whenever the enumerated pids are
pairwise distinct, every entry `getProcessesIO` returns has both rates
zero: the previous-sample lookup scans only entries already appended from
the same batch and never finds a match. -/
theorem c2_rates_always_zero_with_distinct_pids (k : SortBy)
    (entries : List EnumProc) (hnodup : (entries.map EnumProc.pid).Nodup) :
    ∀ l, Tui.getProcessesIOStats k (Except.ok entries) = Except.ok l →
      ∀ x ∈ l, x.ReadRate = 0 ∧ x.WriteRate = 0 := by
  intro l hl x hx
  have hl' : l = sortSliceGo (Tui.lessFor k) (Tui.buildStatsLoop [] entries) := by
    simpa [Tui.getProcessesIOStats] using hl.symm
  rw [hl'] at hx
  exact buildStatsLoop_rates_zero entries []
    (by intro y hy; cases hy) (by intro y hy; cases hy) hnodup x
    (sortSliceGo_subset _ _ x hx)

set_option maxRecDepth 400000 in
/-- Claim C2, witness: a concrete two-process enumeration with distinct
pids and nonzero counters comes back with both rates zero. -/
theorem c2_rates_always_zero_witness :
    (entriesC2w.map EnumProc.pid).Nodup ∧
    (∀ x ∈ outC2w, x.ReadRate = 0 ∧ x.WriteRate = 0) :=
  ⟨by decide,
    c2_rates_always_zero_with_distinct_pids SortBy.SortByCPU entriesC2w
      (by decide) outC2w (by decide)⟩

set_option maxRecDepth 400000 in
/-- Claim C3.  The claim says a matched pair of cumulative counters
yields rate max(0, curr − prev).  The code never clamps: on the one shape
where its lookup matches (a pid occurring twice in one enumeration, here
with counters 1000 then 800) it stores the negative delta −200, while the
spec's derivation yields max(0, 800 − 1000) = 0. -/
theorem c3_negative_delta_not_clamped :
    Except.map (List.map Tui.ProcessIOStat.ReadRate)
      (Tui.getProcessesIOStats SortBy.SortByCPU (Except.ok entriesC3)) =
      Except.ok [0, -200] ∧
    (RateTracker.derive [{ pid := 1, readBytes := 800, writeBytes := 0 }]
        [{ pid := 1, readBytes := 1000, writeBytes := 0 }]).map
      RateTracker.RateSample.readRate = [0] := by
  constructor
  · show Except.map (List.map Tui.ProcessIOStat.ReadRate)
      (Except.ok (sortSliceGo (Tui.lessFor SortBy.SortByCPU)
        (Tui.buildStatsLoop [] entriesC3))) = Except.ok [0, -200]
    rw [buildC3, sortC3]
    decide
  · norm_num [RateTracker.derive, List.find?]

set_option maxRecDepth 400000 in
/-- Claim C4.  The claim says no displayed rate value is ever a lifetime
total.  The bubbletea variant's `View` prints the humanized cumulative
`ReadBytes`/`WriteBytes` under its `Read/s`/`Write/s` headers: a process
with 2 MiB of lifetime reads renders the cell `2.00 MB` in the `Read/s`
column. -/
theorem c4_view_displays_lifetime_total_as_rate :
    statC4.ReadBytes = 2097152 ∧
    Tea.view 0 0 modelC4 =
      "CPU Usage: 0.0% | Memory Usage: 0.0%\n\n" ++
      "PID\tName\tCPU%\tMEM%\tRead/s\tWrite/s\n" ++
      String.mk (List.replicate 80 '-') ++ "\n" ++
      ">1\tdd\t0.0\t0.0\t2.00 MB\t0.00 B\n" ++
      "\nPress up/down to select process, enter to show/hide files, q to quit" := by
  constructor
  · rfl
  · unfold Tea.view modelC4
    simp only [Tea.viewRowsAux, Tea.rowLine, statC4]
    norm_num
    rw [humanize_2mib, humanize_zero, ff1_zero]
    decide

set_option maxRecDepth 400000 in
/-- Claim C5.  The claim says ranking preserves the relative input order
of equal keys.  Go's `sort.Slice` (pdqsort) does not: in this 13-process
batch, pids 1 and 7 both have CPU% 5 and pid 1 is enumerated first, yet
the sorted output places pid 7 before pid 1. -/
theorem c5_sort_slice_not_stable :
    entriesC5.map (fun e => (e.pid, e.cpuPercent)) =
      [(1, Except.ok 5), (2, Except.ok 9), (3, Except.ok 8), (4, Except.ok 7),
       (5, Except.ok 6), (6, Except.ok 4), (7, Except.ok 5), (8, Except.ok 3),
       (9, Except.ok 2), (10, Except.ok 1), (11, Except.ok 0),
       (12, Except.ok 10), (13, Except.ok 11)] ∧
    Except.map (List.map Tui.ProcessIOStat.PID)
      (Tui.getProcessesIOStats SortBy.SortByCPU (Except.ok entriesC5)) =
      Except.ok [13, 12, 2, 3, 4, 5, 7, 1, 6, 8, 9, 10, 11] := by
  constructor
  · decide
  · decide

/-- Claim C6.  Under the library sort's documented contract (the batch
comes back as a permutation of the input, ordered descending by the
selected key), the truncation the termui `draw` applies afterwards keeps
exactly min(20, count) rows, every kept row is one of the input
processes, and every kept row's key dominates every dropped row's key —
the true top-min(20, count). -/
theorem c6_truncation_after_sort (k : SortBy) (ps out : List Tui.ProcessIOStat)
    (h : SortSliceContract k ps out) :
    (Tui.truncateTui out).length = min 20 ps.length ∧
    (∀ x ∈ Tui.truncateTui out, x ∈ ps) ∧
    (∀ x ∈ Tui.truncateTui out,
      ∀ y ∈ out.drop (if out.length > 20 then 20 else out.length),
        Tui.keyOf k y ≤ Tui.keyOf k x) := by
  obtain ⟨hperm, hsort⟩ := h
  have hlen : out.length = ps.length := hperm.length_eq
  refine ⟨?_, ?_, ?_⟩
  · simp only [Tui.truncateTui, List.length_take]
    split <;> omega
  · intro x hx
    exact hperm.subset (List.mem_of_mem_take hx)
  · intro x hx y hy
    have hsplit := List.take_append_drop
      (if out.length > 20 then 20 else out.length) out
    have hpair := List.pairwise_append.mp (by rw [hsplit]; exact hsort)
    exact hpair.2.2 x hx y hy

set_option maxRecDepth 400000 in
/-- Claim C6, witness: a concrete sorted permutation of a two-process
batch keeps min(20, 2) = 2 rows. -/
theorem c6_truncation_after_sort_witness :
    SortSliceContract SortBy.SortByCPU psC6w outC6w ∧
    (Tui.truncateTui outC6w).length = min 20 psC6w.length :=
  ⟨by decide,
    (c6_truncation_after_sort SortBy.SortByCPU psC6w outC6w (by decide)).1⟩

/-- Claim C7, counterexample.  The claim's third example says 1073741824
bytes humanize to `1.00 GB`; the strict `> 1024` loop guard stops at
1024.00 MB (1024 does not exceed 1024). -/
theorem c7_gigabyte_example_false :
    humanizeBytes 1073741824 = "1024.00 MB" ∧
    humanizeBytes 1073741824 ≠ "1.00 GB" := by
  refine ⟨humanize_gib, ?_⟩
  rw [humanize_gib]
  decide

/-- Claim C7, amended.  Humanization divides by 1024 while the value
strictly exceeds 1024 and a larger unit remains, formatting two decimals:
0 → `0.00 B`, 1536 → `1.50 KB`, and in general any value in
(1024, 1024²] lands on the KB unit as value/1024; the 2³⁰ boundary
renders `1024.00 MB`, and GB is reached only above it (2³⁰ + 1 →
`1.00 GB`). -/
theorem c7_humanize_boundaries_amended :
    humanizeBytes 0 = "0.00 B" ∧
    humanizeBytes 1536 = "1.50 KB" ∧
    humanizeBytes 1073741824 = "1024.00 MB" ∧
    humanizeBytes 1073741825 = "1.00 GB" ∧
    (∀ b : ℚ, 1024 < b → b ≤ 1024 * 1024 →
      humanizeBytes b = formatFixed 2 (b / 1024) ++ " KB") :=
  ⟨humanize_zero, humanize_1536, humanize_gib, humanize_gib1, humanize_kb⟩

/-- Claim C7, witness for the amended claim's quantified part at 1536. -/
theorem c7_humanize_boundaries_amended_witness :
    humanizeBytes 1536 = formatFixed 2 ((1536 : ℚ) / 1024) ++ " KB" :=
  c7_humanize_boundaries_amended.2.2.2.2 1536 (by norm_num) (by norm_num)

/-- Claim C8.  A tick whose batch fetch fails leaves the loop state — the
sort key and the rendered `table.Rows` — exactly as it was, so the rows
after a failing tick equal the rows after the last successful tick; the
loop keeps running (the step returns a state, not the quit signal). -/
theorem c8_fetch_failure_preserves_last_frame :
    ∀ (s : Tui.TuiState) (b : List EnumProc) (e : String),
      Tui.mainStep (Except.error e) Tui.TuiEvent.tick s = some s ∧
      Tui.runTui [(Except.ok b, Tui.TuiEvent.tick),
          (Except.error e, Tui.TuiEvent.tick)] s =
        Tui.runTui [(Except.ok b, Tui.TuiEvent.tick)] s := by
  intro s b e
  exact ⟨rfl, rfl⟩

set_option maxRecDepth 400000 in
/-- Claim C9, counterexample.  The claim says any per-process field error
(CPU% included) omits the process from the batch.  A process whose
`CPUPercent()` fails but whose name and IO counters succeed is kept, with
CPU% 0 — the batch has one entry, not zero. -/
theorem c9_cpu_error_process_not_omitted :
    entryC9.cpuPercent = Except.error () ∧
    Except.map (List.map (fun p => (p.PID, p.CPUPercent)))
      (Tui.getProcessesIOStats SortBy.SortByCPU (Except.ok [entryC9])) =
      Except.ok [(1, 0)] := by
  constructor
  · rfl
  · decide

set_option maxRecDepth 400000 in
/-- Claim C9, amended.  Per-process failures never abort the batch and
are never propagated (the result is always `ok`); every returned entry
originates from an enumerated process whose `Name()` and `IOCounters()`
both succeeded (so a name- or IO-failing process contributes nothing);
CPU%/memory%/open-files failures keep the process (with zero value or
empty list); and a batch of three processes where the middle one fails
its IO counters yields exactly the other two. -/
theorem c9_partial_failure_amended :
    (∀ (k : SortBy) (es : List EnumProc),
      ∃ l, Tui.getProcessesIOStats k (Except.ok es) = Except.ok l) ∧
    (∀ (k : SortBy) (es : List EnumProc) (l : List Tui.ProcessIOStat),
      Tui.getProcessesIOStats k (Except.ok es) = Except.ok l →
      ∀ x ∈ l, ∃ e ∈ es, (∃ nm, e.name = Except.ok nm) ∧
        (∃ st, e.ioCounters = Except.ok st) ∧ x.PID = e.pid) ∧
    Except.map (List.map Tui.ProcessIOStat.PID)
      (Tui.getProcessesIOStats SortBy.SortByCPU (Except.ok trioC9)) =
      Except.ok [1, 3] := by
  refine ⟨?_, ?_, ?_⟩
  · intro k es
    exact ⟨_, rfl⟩
  · intro k es l hl x hx
    have hl' : l = sortSliceGo (Tui.lessFor k) (Tui.buildStatsLoop [] es) := by
      simpa [Tui.getProcessesIOStats] using hl.symm
    rw [hl'] at hx
    rcases buildStatsLoop_origin es [] x (sortSliceGo_subset _ _ x hx) with h | h
    · cases h
    · exact h
  · decide

set_option maxRecDepth 400000 in
/-- Claim C9, witness: the amended claim's origin property applied to the
concrete three-process batch and its first returned entry. -/
theorem c9_partial_failure_amended_witness :
    ∃ e ∈ trioC9, (∃ nm, e.name = Except.ok nm) ∧
      (∃ st, e.ioCounters = Except.ok st) ∧ statTrio1.PID = e.pid :=
  c9_partial_failure_amended.2.1 SortBy.SortByCPU trioC9 lC9 (by decide)
    statTrio1 (by decide)

/-- Claim C10.  Pressing `r`, `w` or `c` updates the sort key and redraws
in the same event-handling step: the resulting state carries the new key
and rows rebuilt by `draw` under that key from a fresh sample, without
waiting for the next timer tick. -/
theorem c10_sort_key_immediate_redraw :
    ∀ (fetch : Except String (List EnumProc)) (s : Tui.TuiState),
      Tui.mainStep fetch (Tui.TuiEvent.uiEvent "r") s =
        some { currentSort := SortBy.SortByRead,
               rows := Tui.drawTui SortBy.SortByRead fetch s.rows } ∧
      Tui.mainStep fetch (Tui.TuiEvent.uiEvent "w") s =
        some { currentSort := SortBy.SortByWrite,
               rows := Tui.drawTui SortBy.SortByWrite fetch s.rows } ∧
      Tui.mainStep fetch (Tui.TuiEvent.uiEvent "c") s =
        some { currentSort := SortBy.SortByCPU,
               rows := Tui.drawTui SortBy.SortByCPU fetch s.rows } := by
  intro fetch s
  exact ⟨rfl, rfl, rfl⟩
